import Mathlib

/-!
Shallow embedding of the BetterFeed article aggregation and enrichment
pipeline (Next.js route `src/app/api/articles/fetch/route.ts`, the AI
summary service `src/lib/services/summarize.ts`, and the earlier route
iterations kept in the repository), together with proofs about the
behaviour of the embedded code.

External I/O (HTTP fetches, the LLM call, the Supabase persistence
client) is modelled by explicit oracle parameters; the control flow and
all data manipulation are translated from the TypeScript source.
-/

namespace BetterFeed

/-- JavaScript string truthiness for an optional string field: `null`,
`undefined` and the empty string are falsy, every other string is truthy. -/
def strTruthy : Option String → Bool
  | none => false
  | some s => !(s == "")

/-- JavaScript `a.includes(b)` on strings: substring containment. -/
def jsIncludes (s pat : String) : Bool :=
  decide (pat.toList <:+: s.toList)

/-- The in-memory article shape used throughout the route
(`type Article` in `route.ts`). `id` is set once the article is matched
with or stored as a database row. -/
structure Article where
  id : Option Nat
  title : String
  url : String
  source : String
  category : String
  content : Option String
  abstract : Option String
deriving Repr, DecidableEq

/-- A persisted row of the `posts` table, restricted to the columns the
aggregation pipeline reads and writes. -/
structure Post where
  id : Nat
  article_url : String
  title : String
  content : Option String
deriving Repr, DecidableEq

/-- The persistence store: the `posts` table as a list of rows. -/
abbrev Store := List Post

/-- CATEGORY_BY_SOURCE from `route.ts`; the TypeScript map is only ever
indexed with one of its four keys (`keyof typeof CATEGORY_BY_SOURCE`),
so the final branch corresponds to the key `NewsAPI Business`. -/
def CATEGORY_BY_SOURCE (source : String) : String :=
  if source == "arXiv" then "Academia & Research"
  else if source == "Hacker News" then "Technology & Computing"
  else if source == "ScienceDaily" then "Science"
  else "Business & Finance"

/-- `formatArticle` from `route.ts`: canonical candidate construction,
defaulting an empty title to `Untitled`. -/
def formatArticle (title url source : String) : Article :=
  { id := none
    title := if title == "" then "Untitled" else title
    url := url
    source := source
    category := CATEGORY_BY_SOURCE source
    content := none
    abstract := none }

/-! ## Summary service (`src/lib/services/summarize.ts`) -/

/-- The deterministic fallback sentence of `generateArticleSummary`,
used when no content is available at all or when everything else failed. -/
def templateSummary (title : String) : String :=
  "This article titled \"" ++ title ++
    "\" discusses important research findings. Read the full article for detailed information."

/-- The truncation fallback of `generateArticleSummary`: texts longer
than 300 characters are cut to 300 characters plus an ellipsis. -/
def truncate300 (s : String) : String :=
  if s.length > 300 then (s.take 300) ++ "..." else s

/-- `generateArticleSummary(title, abstract, fullText)` from
`summarize.ts`. The LLM call is modelled by the oracle `llm`:
`some text` is a successful `generateText` response (the code returns
`result.text.trim()`), `none` is a thrown error, handled by the
fallback chain of the `catch` block. The 5000-character cap applied to
the prompt only affects the LLM input and is absorbed by the oracle. -/
def generateArticleSummary (title : String) (abstract fullText : Option String)
    (llm : Option String) : String :=
  let content := if strTruthy abstract then abstract else fullText
  if !(strTruthy content) then
    templateSummary title
  else
    match llm with
    | some text => text.trim
    | none =>
      if strTruthy abstract then truncate300 (abstract.getD "")
      else if strTruthy fullText then truncate300 (fullText.getD "")
      else templateSummary title

/-! ## Page-content fetcher (`fetchArticleContent` in `route.ts`) -/

/-- Result of a content-fetch attempt: the extracted text (if any) and
the list of URLs for which a network request was actually issued. -/
structure FetchResult where
  content : Option String
  fetched : List String
deriving Repr, DecidableEq

/-- `fetchArticleContent(url)` from `route.ts`. The oracle `env`
abstracts the outbound HTTP request together with
`extractArticleContent` and the brokenness heuristics: `env url = none`
when the request fails, is non-2xx, or the extracted text is rejected
by the quality check; `env url = some text` when extraction succeeds
with `text`. The guards before any request — the empty URL and the
PDF/arXiv exclusion — are translated literally; an issued request is
recorded in `fetched`. The accepted text is capped at 3000 characters
as in the source. -/
def fetchArticleContent (env : String → Option String) (url : String) : FetchResult :=
  if url == "" then ⟨none, []⟩
  else if jsIncludes url ".pdf" || jsIncludes url "arxiv.org" then ⟨none, []⟩
  else
    match env url with
    | none => ⟨none, [url]⟩
    | some text => ⟨some (text.take 3000), [url]⟩

/-! ## Enricher (`enrichWithContentAndSummary` in `route.ts`) -/

/-- The source-specific fallback message of the enrichment path in
`route.ts`, used when scraping produced no content. -/
def fallbackMessage (a : Article) : String :=
  if a.source == "Hacker News" then
    "This is a trending tech article from Hacker News. Visit the link to read the full discussion and article: " ++ a.title
  else if a.source == "ScienceDaily" then
    "This research article from ScienceDaily discusses: " ++ a.title ++ ". Read the full article for detailed findings."
  else
    "Read this article from " ++ a.source ++ ": " ++ a.title

/-- The per-article body of `enrichWithContentAndSummary` in `route.ts`:
priority 1 uses a provider abstract longer than 50 characters, priority
2 an already-present content longer than 50 characters, priority 3
scrapes the page; a failed scrape yields the source-specific fallback.
`env` is the content-fetch oracle of `fetchArticleContent` and `llm`
the LLM oracle of `generateArticleSummary`; the returned list records
the URLs actually fetched. -/
def enrichOne (env : String → Option String) (llm : Option String) (a : Article) :
    Article × List String :=
  if strTruthy a.abstract && (a.abstract.getD "").length > 50 then
    ({ a with content := some (generateArticleSummary a.title a.abstract none llm) }, [])
  else if strTruthy a.content && (a.content.getD "").length > 50 then
    ({ a with content := some (generateArticleSummary a.title a.content none llm) }, [])
  else
    match fetchArticleContent env a.url with
    | ⟨none, fs⟩ => ({ a with content := some (fallbackMessage a) }, fs)
    | ⟨some scraped, fs⟩ =>
        ({ a with content := some (generateArticleSummary a.title (some scraped) none llm) }, fs)

/-- `enrichWithContentAndSummary(articles, generateSummaries)`: with
summaries disabled the list is returned untouched; otherwise every
article is enriched (`Promise.allSettled` over total per-article
bodies, every result fulfilled). Returns the enriched articles and all
URLs fetched. -/
def enrichWithContentAndSummary (env : String → Option String) (llm : Option String)
    (articles : List Article) (generateSummaries : Bool) : List Article × List String :=
  if !generateSummaries then (articles, [])
  else
    ((articles.map (fun a => (enrichOne env llm a).1)),
     (articles.map (fun a => (enrichOne env llm a).2)).flatten)

/-! ## Source adapters

Each adapter is modelled over an explicit environment describing the
outcome of its outbound HTTP traffic. `HttpOutcome` covers the failure
modes named by the specification: the request itself throwing
(`netError`), a non-2xx response (`badStatus`), an unparseable body
(`malformed`), and success with a parsed payload. The adapter bodies
return `Except String _` — an `error` value is a thrown JavaScript
exception — and the exported adapters wrap their body in the
try/catch of the source, which maps any exception to the empty list. -/

inductive HttpOutcome (α : Type) where
  | netError : HttpOutcome α
  | badStatus : HttpOutcome α
  | malformed : HttpOutcome α
  | ok : α → HttpOutcome α
deriving Repr, DecidableEq

/-- An arXiv feed entry as consumed by `fetchArxiv`: the Atom id, the
optional title and summary, and the result of `getAbstractUrl`
(computed from the entry links by the arXiv service). -/
structure ArxivEntry where
  entryId : String
  title : Option String
  summary : Option String
  abstractUrl : String
deriving Repr, DecidableEq

/-- An item row of the Hacker News item endpoint. -/
structure HNItem where
  title : Option String
  url : Option String
  itemId : Option Nat
deriving Repr, DecidableEq

/-- A parsed item of the ScienceDaily RSS feed. `parseScienceDailyRSS`
only emits items with a nonempty title and link; the description is
already stripped of HTML tags as by the cleaning regex. -/
structure SDItem where
  title : String
  link : String
  description : Option String
deriving Repr, DecidableEq

/-- An article object of the NewsAPI response payload. -/
structure NewsItem where
  title : Option String
  url : Option String
  description : Option String
deriving Repr, DecidableEq

/-- The parsed NewsAPI payload: its `status` field may itself signal an
API-level error even on a 2xx response. -/
structure NewsPayload where
  errorStatus : Bool
  message : String
  articles : List NewsItem
deriving Repr, DecidableEq

/-- Environment of one aggregation request: the outcome of each
provider request, the per-item Hacker News lookups, and the NewsAPI
credential. -/
structure SourcesEnv where
  arxivFeed : HttpOutcome (List ArxivEntry)
  hnTop : HttpOutcome (List Nat)
  hnItem : Nat → HttpOutcome (Option HNItem)
  sdFeed : HttpOutcome (List SDItem)
  newsKey : Option String
  newsResp : HttpOutcome NewsPayload

/-- Body of `fetchArxiv`: `searchArticles` throws on any transport or
parse failure; on success the entries are truncated to `limit` and
mapped through `formatArticle`, the link preferring the abstract URL
over the raw id and the entry summary kept as the candidate abstract. -/
def fetchArxivBody (env : SourcesEnv) (limit : Nat) : Except String (List Article) :=
  match env.arxivFeed with
  | .netError => .error "fetch failed"
  | .badStatus => .error "bad status"
  | .malformed => .error "parse failed"
  | .ok entries =>
      .ok ((entries.take limit).map (fun e =>
        let url := if e.abstractUrl == "" then e.entryId else e.abstractUrl
        let a := formatArticle (if (e.title.getD "") == "" then "arXiv Article" else e.title.getD "") url "arXiv"
        { a with abstract := if strTruthy e.summary then e.summary else none }))

/-- `fetchArxiv(limit)` from `route.ts`: the body wrapped in try/catch,
any exception becoming the empty list. -/
def fetchArxiv (env : SourcesEnv) (limit : Nat) : List Article :=
  match fetchArxivBody env limit with
  | .error _ => []
  | .ok articles => articles

/-- Body of `fetchHackerNews`: the top-stories request throws on
network error, non-2xx or malformed JSON; the per-item requests run
under `Promise.allSettled`, so a failed or null item is skipped rather
than thrown. -/
def fetchHackerNewsBody (env : SourcesEnv) (limit : Nat) : Except String (List Article) :=
  match env.hnTop with
  | .netError => .error "fetch failed"
  | .badStatus => .error "bad status"
  | .malformed => .error "parse failed"
  | .ok topIds =>
      let targets := topIds.take limit
      let articles := targets.filterMap (fun i =>
        match env.hnItem i with
        | .ok (some data) =>
            let url := match data.url with
              | some u => if u == "" then (match data.itemId with
                  | some j => "https://news.ycombinator.com/item?id=" ++ toString j
                  | none => "")
                else u
              | none => match data.itemId with
                | some j => "https://news.ycombinator.com/item?id=" ++ toString j
                | none => ""
            some (formatArticle (if (data.title.getD "") == "" then "Hacker News Story" else data.title.getD "") url "Hacker News")
        | _ => none)
      .ok (articles.take limit)

/-- `fetchHackerNews(limit)` from `route.ts`. -/
def fetchHackerNews (env : SourcesEnv) (limit : Nat) : List Article :=
  match fetchHackerNewsBody env limit with
  | .error _ => []
  | .ok articles => articles

/-- Body of `fetchScienceDaily`: the RSS request throws on network
error or non-2xx; a body in which the item regex finds nothing parses
to the empty item list (the parser itself never throws). Descriptions
longer than 20 characters are kept as initial content. -/
def fetchScienceDailyBody (env : SourcesEnv) (limit : Nat) : Except String (List Article) :=
  match env.sdFeed with
  | .netError => .error "fetch failed"
  | .badStatus => .error "bad status"
  | .malformed => .ok []
  | .ok items =>
      .ok ((items.take limit).map (fun e =>
        let a := formatArticle e.title e.link "ScienceDaily"
        match e.description with
        | some d => if d.length > 20 then { a with content := some d } else a
        | none => a))

/-- `fetchScienceDaily(limit)` from `route.ts`. -/
def fetchScienceDaily (env : SourcesEnv) (limit : Nat) : List Article :=
  match fetchScienceDailyBody env limit with
  | .error _ => []
  | .ok articles => articles

/-- Body of `fetchNewsAPI` after the credential check: the request
throws on network error, non-2xx or malformed JSON; an API-level error
status returns the empty list without throwing; otherwise the payload
articles are truncated and mapped, descriptions longer than 20
characters kept as initial content. -/
def fetchNewsAPIBody (env : SourcesEnv) (limit : Nat) : Except String (List Article) :=
  match env.newsResp with
  | .netError => .error "fetch failed"
  | .badStatus => .error "bad status"
  | .malformed => .error "parse failed"
  | .ok payload =>
      if payload.errorStatus then .ok []
      else
        .ok ((payload.articles.take limit).map (fun item =>
          let a := formatArticle (if (item.title.getD "") == "" then "Business News" else item.title.getD "")
            (item.url.getD "") "NewsAPI Business"
          match item.description with
          | some d => if d.length > 20 then { a with content := some d } else a
          | none => a))

/-- `fetchNewsAPI(limit)` from `route.ts`: a missing `NEWSAPI_KEY`
returns the empty list before the try block; inside it, any exception
becomes the empty list. -/
def fetchNewsAPI (env : SourcesEnv) (limit : Nat) : List Article :=
  match env.newsKey with
  | none => []
  | some _ =>
      match fetchNewsAPIBody env limit with
      | .error _ => []
      | .ok articles => articles

/-! ## Aggregator (`fetchAllArticles` in `route.ts`) -/

/-- `fetchAllArticles(limit, shouldShuffle)`: the four registered
adapters run under `Promise.allSettled`; since every adapter swallows
its own failures, every slot is fulfilled and the fulfilled values are
concatenated in registration order. The Fisher-Yates shuffle draws on
`Math.random` and is modelled by the permutation oracle `shuffle`,
applied only when `shouldShuffle` is set. -/
def fetchAllArticles (env : SourcesEnv) (limit : Nat) (shouldShuffle : Bool)
    (shuffle : List Article → List Article) : List Article :=
  let results := [fetchArxiv env limit, fetchHackerNews env limit,
                  fetchScienceDaily env limit, fetchNewsAPI env limit]
  let articles := results.foldl (fun acc r => acc ++ r) []
  if shouldShuffle then shuffle articles else articles

/-! ## Request limit clamping (`GET` and `POST` in `route.ts`) -/

/-- MAX_PER_SOURCE from `route.ts`. -/
def MAX_PER_SOURCE : Int := 10

/-- The per-source limit computed by `GET` for an integer query
parameter `n`: `Math.min(MAX_PER_SOURCE, Math.max(1, parseInt(...)))`,
where `parseInt` of the decimal representation of `n` is `n` itself. -/
def getLimit (n : Int) : Int :=
  min MAX_PER_SOURCE (max 1 n)

/-- The per-source limit computed by `POST` for an integer body field
`n`: `Math.min(MAX_PER_SOURCE, Math.max(1, Number(body.limit) || MAX_PER_SOURCE))`.
JavaScript `||` replaces a falsy left operand, and the number 0 is
falsy, so `n = 0` is replaced by the default before clamping. -/
def postLimit (n : Int) : Int :=
  min MAX_PER_SOURCE (max 1 (if n == 0 then MAX_PER_SOURCE else n))

/-! ## Dedup / cache resolution and the persistence writer
(`persistArticles` in `route.ts`) -/

/-- The three-way split computed by the candidate loop of
`persistArticles`: candidates reusing an existing summary, candidates
updating an existing row whose summary is absent, and candidates with
no existing row. -/
structure SplitResult where
  storedKnown : List Article
  toUpdate : List Article
  newArticles : List Article
deriving Repr, DecidableEq

/-- The URL map built by `persistArticles`: the bulk query selects the
rows whose `article_url` is among the (truthy) candidate URLs, and
`new Map` keeps the last entry for a duplicated key. `mkLookup store
articles url` is `existingUrlMap.get(url)`. -/
def mkLookup (store : Store) (articles : List Article) (url : String) : Option Post :=
  (((store.filter (fun p =>
      ((articles.map Article.url).filter (fun u => !(u == ""))).contains p.article_url)).filter
    (fun p => p.article_url == url))).getLast?

/-- The candidate loop of `persistArticles`, parameterised by the URL
lookup: an existing row with absent content and an incoming candidate
with content goes to the update branch; any other existing row is
reused (keeping its content when present); candidates without a row
are new. -/
def resolveGo (lookup : String → Option Post) : List Article → SplitResult
  | [] => ⟨[], [], []⟩
  | a :: rest =>
    let r := resolveGo lookup rest
    match lookup a.url with
    | some ex =>
        if !(strTruthy ex.content) && strTruthy a.content then
          ⟨r.storedKnown, { a with id := some ex.id } :: r.toUpdate, r.newArticles⟩
        else
          ⟨{ a with
              id := some ex.id
              content := if strTruthy ex.content then ex.content else a.content } :: r.storedKnown,
            r.toUpdate, r.newArticles⟩
    | none => ⟨r.storedKnown, r.toUpdate, a :: r.newArticles⟩

/-- The dedup/cache resolution step of `persistArticles` in `route.ts`:
one bulk query keyed by the candidate URLs, then the split loop. -/
def resolveArticles (store : Store) (articles : List Article) : SplitResult :=
  resolveGo (mkLookup store articles) articles

/-- The update pass of `persistArticles`: each update sets only the
`content` column of the row matched by id. -/
def applyUpdates (store : Store) (toUpdate : List Article) : Store :=
  toUpdate.foldl
    (fun st a => st.map (fun p => if some p.id == a.id then { p with content := a.content } else p))
    store

/-- The database-generated id of the next inserted row: fresh with
respect to the current store. -/
def freshId (store : Store) : Nat :=
  store.foldl (fun m p => max m p.id) 0 + 1

/-- The summary pass applied to new articles before insertion in
`persistArticles`: an article without content receives the educational
placeholder. -/
def withSummaries (articles : List Article) : List Article :=
  articles.map (fun a =>
    if strTruthy a.content then a
    else
      let placeholder := "This is an educational article from " ++ a.source ++ ". Visit the link to learn about this topic."
      { a with content := some placeholder })

/-- The row inserted for a new candidate: URL, title and content
(`content || null`), with a database-generated fresh id. -/
def newRow (st : Store) (a : Article) : Post :=
  { id := freshId st
    article_url := a.url
    title := a.title
    content := if strTruthy a.content then a.content else none }

/-- The batch insert of `persistArticles`: each new row stores the
candidate URL, title and content (`content || null`). Rows are
appended with database-generated fresh ids. -/
def insertNew (store : Store) (articles : List Article) : Store :=
  articles.foldl (fun st a => st ++ [newRow st a]) store

/-- Effect of one successful `persistArticles` pass (`route.ts`) on the
posts store: resolve the batch against the store, update the rows with
absent summaries, then insert the new candidates. -/
def persistArticlesStore (store : Store) (articles : List Article) : Store :=
  let r := resolveArticles store articles
  insertNew (applyUpdates store r.toUpdate) (withSummaries r.newArticles)

/-! ## The legacy persistence writer (first route iteration kept in the
repository, `persistArticles` with a per-candidate query) -/

/-- The per-candidate lookup of the legacy writer:
`.eq('article_url', url).limit(1)` returns the first matching row. -/
def lookupByUrl (store : Store) (url : String) : Option Post :=
  store.find? (fun p => p.article_url == url)

/-- Effect of one pass of the legacy `persistArticles` (the earlier
route iteration) on the posts store: for an existing row it writes
`title` and `content: article.content ?? existing.content` — nullish
coalescing, so any non-null incoming content replaces the stored one;
for a missing row it inserts the candidate. -/
def persistArticlesLegacy (store : Store) (articles : List Article) : Store :=
  articles.foldl
    (fun st a =>
      match lookupByUrl st a.url with
      | some ex =>
          st.map (fun p =>
            if p.id == ex.id then
              { p with
                title := a.title
                content := match a.content with
                  | some c => some c
                  | none => ex.content }
            else p)
      | none => st ++ [newRow st a])
    store

/-! ## Background scheduler (`processArticlesInBackground`, smart-cache
route iteration)

The scheduler walks the queued candidates with `for (i = 0; i < n;
i += 2)`, awaiting `Promise.allSettled` over the two tasks of each
slice and sleeping between slices. The embedding serialises the awaited
batches: batch `n+1` is processed only after both tasks of batch `n`
have settled, exactly as the `await` in the loop enforces, and the
write effects of the two tasks of one batch (which target distinct
rows) are applied in order. A trace of events records each settled task
and each inter-batch pause. -/

/-- Oracles for one background run: whether the task body for a given
URL throws (caught by the per-task try/catch), the outcome of its
content fetch, and the outcome of its LLM call. -/
structure BgEnv where
  crash : String → Bool
  fetch : String → Option String
  llm : String → Option String

/-- Observable events of a background run: a task settling (with the
flag telling whether it wrote to the store) and the pause separating
two consecutive batches. -/
inductive BgEvent where
  | settled : String → Bool → BgEvent
  | pause : BgEvent
deriving Repr, DecidableEq

/-- One background task of `processArticlesInBackground`: fetch the
page content (no content means the task logs and returns without
writing), summarize it — the iteration passes the scraped content as
the only argument of `generateArticleSummary`, so it arrives in the
title position with no abstract and no full text — and update the
matched row by id, or insert a new row when the candidate has none.
A thrown exception is caught by the task and writes nothing. -/
def runTask (env : BgEnv) (store : Store) (a : Article) : Store × BgEvent :=
  if env.crash a.url then (store, .settled a.url false)
  else
    match env.fetch a.url with
    | none => (store, .settled a.url false)
    | some content =>
        let summary := generateArticleSummary content none none (env.llm a.url)
        match a.id with
        | some i =>
            (store.map (fun p => if p.id == i then { p with content := some summary } else p),
             .settled a.url true)
        | none =>
            (store ++ [{ id := freshId store, article_url := a.url, title := a.title,
                         content := some summary }],
             .settled a.url true)

/-- Whether the background task for a candidate performs a store write:
it does exactly when it neither throws nor comes back without content. -/
def taskWrites (env : BgEnv) (a : Article) : Bool :=
  !env.crash a.url && (env.fetch a.url).isSome

/-- The batch loop of `processArticlesInBackground`: two tasks per
slice, a pause after a slice exactly when further candidates remain
(`if (i + 2 < articles.length)`). -/
def bgLoop (env : BgEnv) : Store → List Article → Store × List BgEvent
  | store, [] => (store, [])
  | store, [a] =>
      let r1 := runTask env store a
      (r1.1, [r1.2])
  | store, a :: b :: rest =>
      let r1 := runTask env store a
      let r2 := runTask env r1.1 b
      let r3 := bgLoop env r2.1 rest
      (r3.1, r1.2 :: r2.2 :: (if rest.isEmpty then r3.2 else BgEvent.pause :: r3.2))

/-- `processArticlesInBackground(articles, systemUserId)` from the
smart-cache route iteration (the early return on an empty queue kept
from the source). -/
def processArticlesInBackground (env : BgEnv) (articles : List Article) (store : Store) :
    Store × List BgEvent :=
  if articles.isEmpty then (store, []) else bgLoop env store articles

/-- The slices `articles.slice(i, i + 2)` visited by the background
loop, in visiting order. -/
def chunk2 {α : Type} : List α → List (List α)
  | [] => []
  | [a] => [[a]]
  | a :: b :: rest => [a, b] :: chunk2 rest

/-- Interleave batch traces with the inter-batch pause. -/
def joinPause : List (List BgEvent) → List BgEvent
  | [] => []
  | [b] => b
  | b :: c :: rest => b ++ BgEvent.pause :: joinPause (c :: rest)

/-! ## Store and batch well-formedness -/

/-- A well-formed posts store: no two rows share a `sourceUrl` and no
row carries the empty URL. -/
def StoreOk (store : Store) : Prop :=
  (store.map Post.article_url).Nodup ∧ "" ∉ store.map Post.article_url

/-- A candidate batch without internal URL collisions or empty URLs. -/
def BatchOk (articles : List Article) : Prop :=
  (articles.map Article.url).Nodup ∧ "" ∉ articles.map Article.url

/-! ## Concrete fixtures used by counterexamples and witnesses -/

/-- An environment in which every provider request fails. -/
def failEnv : SourcesEnv :=
  { arxivFeed := .netError
    hnTop := .badStatus
    hnItem := fun _ => .netError
    sdFeed := .malformed
    newsKey := none
    newsResp := .netError }

/-- An environment in which Hacker News and ScienceDaily fail while
arXiv and NewsAPI succeed. -/
def mixedEnv : SourcesEnv :=
  { arxivFeed := .ok [{ entryId := "http://arxiv.org/abs/2401.1", title := some "An arXiv paper",
                        summary := some "An abstract.", abstractUrl := "https://arxiv.org/abs/2401.1" }]
    hnTop := .netError
    hnItem := fun _ => .netError
    sdFeed := .badStatus
    newsKey := some "key"
    newsResp := .ok { errorStatus := false, message := ""
                      articles := [{ title := some "A business story",
                                     url := some "https://news.example/b1",
                                     description := some "A description longer than twenty chars." }] } }

/-- A string of exactly 50 characters. -/
def fiftyCharAbstract : String := "01234567890123456789012345678901234567890123456789"

/-- A string of exactly 120 characters. -/
def abstract120 : String :=
  String.mk (List.replicate 120 'a')

/-- An arXiv candidate whose provider abstract is exactly 50 characters. -/
def arxivCandidate50 : Article :=
  { id := none
    title := "Paper A"
    url := "https://x/a"
    source := "arXiv"
    category := "Academia & Research"
    content := none
    abstract := some fiftyCharAbstract }

/-- An arXiv candidate whose provider abstract is 120 characters. -/
def arxivCandidate120 : Article :=
  { arxivCandidate50 with abstract := some abstract120 }

/-- A persisted row for URL `u1`. -/
def postU1 : Post :=
  { id := 7, article_url := "u1", title := "Known article", content := some "Cached summary" }

/-- A candidate for URL `u1`. -/
def candA : Article :=
  { id := none, title := "A", url := "u1", source := "Hacker News"
    category := "Technology & Computing", content := some "Summary A", abstract := none }

/-- A second candidate for the same URL `u1`. -/
def candB : Article :=
  { id := none, title := "B", url := "u1", source := "NewsAPI Business"
    category := "Business & Finance", content := some "Summary B", abstract := none }

/-- A candidate for the distinct URL `u2`. -/
def candC : Article :=
  { id := none, title := "C", url := "u2", source := "ScienceDaily"
    category := "Science", content := some "Summary C", abstract := none }

/-- A background environment in which the task for URL `u1` throws and
every other task fetches content successfully. -/
def bgEnvW : BgEnv :=
  { crash := fun u => u == "u1"
    fetch := fun _ => some "Fetched page text"
    llm := fun _ => none }

/-! ## Helper lemmas -/

@[simp] theorem strTruthy_none : strTruthy none = false := rfl

@[simp] theorem strTruthy_some (s : String) : strTruthy (some s) = !(s == "") := rfl

/-- Truncating a nonempty string to 300 characters yields a nonempty string. -/
theorem truncate300_ne_empty (s : String) (h : s ≠ "") : truncate300 s ≠ "" := by
  unfold truncate300
  split
  · intro hc
    have h2 := congrArg String.length hc
    simp [String.length_append] at h2
    exact absurd h2.2 (by decide)
  · exact h

/-- The templated fallback sentence is never empty. -/
theorem templateSummary_ne_empty (title : String) : templateSummary title ≠ "" := by
  intro hc
  have h2 := congrArg String.length hc
  simp [templateSummary, String.length_append] at h2
  exact absurd h2.2 (by decide)

/-- Every update-branch entry produced by the resolution loop carries
the id of a looked-up row whose stored content is absent. -/
theorem resolveGo_toUpdate_ids (lookup : String → Option Post) (as : List Article) :
    ∀ x ∈ (resolveGo lookup as).toUpdate,
      ∃ ex : Post, lookup x.url = some ex ∧ strTruthy ex.content = false ∧ x.id = some ex.id := by
  induction as with
  | nil => simp [resolveGo]
  | cons a rest ih =>
    intro x hx
    cases hl : lookup a.url with
    | some ex =>
      simp only [resolveGo, hl] at hx
      by_cases hcond : (!(strTruthy ex.content) && strTruthy a.content) = true
      · rw [if_pos hcond] at hx
        rcases List.mem_cons.mp hx with hx | hx
        · subst hx
          refine ⟨ex, ?_, ?_, rfl⟩
          · simpa using hl
          · simp at hcond
            exact hcond.1
        · exact ih x hx
      · rw [if_neg hcond] at hx
        exact ih x hx
    | none =>
      simp only [resolveGo, hl] at hx
      exact ih x hx

/-- A row found by the bulk URL lookup belongs to the store. -/
theorem mkLookup_mem (store : Store) (articles : List Article) (u : String) (ex : Post)
    (h : mkLookup store articles u = some ex) : ex ∈ store := by
  unfold mkLookup at h
  obtain ⟨hne, hx⟩ := List.mem_getLast?_eq_getLast (Option.mem_def.mpr h)
  have h1 : ex ∈ List.filter (fun p => p.article_url == u)
      (List.filter (fun p =>
        (List.filter (fun u => !u == "") (List.map Article.url articles)).contains p.article_url) store) := by
    rw [hx]
    exact List.getLast_mem hne
  have h2 := List.mem_filter.mp h1
  have h3 := List.mem_filter.mp h2.1
  exact h3.1

/-- A row not targeted by any update survives the update pass untouched. -/
theorem applyUpdates_mem (ts : List Article) (store : Store) (p : Post)
    (hp : p ∈ store) (h : ∀ a ∈ ts, a.id ≠ some p.id) : p ∈ applyUpdates store ts := by
  induction ts generalizing store with
  | nil => simpa [applyUpdates] using hp
  | cons a rest ih =>
    have hfix : (fun q => if some q.id == a.id then { q with content := a.content } else q) p = p := by
      have hne : ¬ (some p.id == a.id) = true := by
        intro hb
        exact h a (List.mem_cons_self a rest) ((beq_iff_eq.mp hb).symm)
      show (if some p.id == a.id then _ else p) = p
      exact if_neg hne
    have step : p ∈ store.map (fun q => if some q.id == a.id then { q with content := a.content } else q) := by
      rw [← hfix]
      exact List.mem_map_of_mem _ hp
    have hrest : ∀ x ∈ rest, x.id ≠ some p.id := fun x hx => h x (List.mem_cons_of_mem a hx)
    simpa [applyUpdates] using ih _ step hrest

/-- Rows already in the store survive the batch insert. -/
theorem insertNew_mem (as : List Article) (store : Store) (p : Post)
    (hp : p ∈ store) : p ∈ insertNew store as := by
  induction as generalizing store with
  | nil => simpa [insertNew] using hp
  | cons a rest ih =>
    have hstep : p ∈ store ++ [newRow store a] := List.mem_append_left _ hp
    simpa [insertNew] using ih _ hstep



theorem applyUpdates_urls (ts : List Article) (store : Store) :
    (applyUpdates store ts).map Post.article_url = store.map Post.article_url := by
  induction ts generalizing store with
  | nil => simp [applyUpdates]
  | cons a rest ih =>
    have step : (store.map (fun q => if some q.id == a.id then { q with content := a.content } else q)).map
        Post.article_url = store.map Post.article_url := by
      rw [List.map_map]
      apply List.map_congr_left
      intro q _
      show (if some q.id == a.id then { q with content := a.content } else q).article_url = q.article_url
      split <;> rfl
    calc (applyUpdates store (a :: rest)).map Post.article_url
        = (applyUpdates (store.map (fun q => if some q.id == a.id then { q with content := a.content } else q)) rest).map Post.article_url := rfl
      _ = _ := by rw [ih, step]

theorem insertNew_urls (as : List Article) (store : Store) :
    (insertNew store as).map Post.article_url =
      store.map Post.article_url ++ as.map Article.url := by
  induction as generalizing store with
  | nil => simp [insertNew]
  | cons a rest ih =>
    calc (insertNew store (a :: rest)).map Post.article_url
        = (insertNew (store ++ [newRow store a]) rest).map Post.article_url := rfl
      _ = (store ++ [newRow store a]).map Post.article_url ++ rest.map Article.url := ih _
      _ = store.map Post.article_url ++ (a.url :: rest.map Article.url) := by
          simp [newRow]

theorem withSummaries_urls (as : List Article) :
    (withSummaries as).map Article.url = as.map Article.url := by
  unfold withSummaries
  rw [List.map_map]
  apply List.map_congr_left
  intro a _
  by_cases h : strTruthy a.content = true
  · simp [h]
  · simp [h]

theorem resolveGo_new_sublist (lookup : String → Option Post) (as : List Article) :
    List.Sublist (resolveGo lookup as).newArticles as := by
  induction as with
  | nil => simp [resolveGo]
  | cons a rest ih =>
    cases hl : lookup a.url with
    | some ex =>
      simp only [resolveGo, hl]
      by_cases hcond : (!(strTruthy ex.content) && strTruthy a.content) = true
      · rw [if_pos hcond]
        exact List.Sublist.cons a ih
      · rw [if_neg hcond]
        exact List.Sublist.cons a ih
    | none =>
      simp only [resolveGo, hl]
      exact List.Sublist.cons₂ a ih

theorem resolveGo_new_lookup_none (lookup : String → Option Post) (as : List Article) :
    ∀ x ∈ (resolveGo lookup as).newArticles, lookup x.url = none := by
  induction as with
  | nil => simp [resolveGo]
  | cons a rest ih =>
    intro x hx
    cases hl : lookup a.url with
    | some ex =>
      simp only [resolveGo, hl] at hx
      by_cases hcond : (!(strTruthy ex.content) && strTruthy a.content) = true
      · rw [if_pos hcond] at hx
        exact ih x hx
      · rw [if_neg hcond] at hx
        exact ih x hx
    | none =>
      simp only [resolveGo, hl] at hx
      rcases List.mem_cons.mp hx with hx | hx
      · subst hx
        exact hl
      · exact ih x hx

theorem mkLookup_none_not_in_store (store : Store) (articles : List Article) (u : String)
    (hu : u ∈ articles.map Article.url) (hne : u ≠ "")
    (h : mkLookup store articles u = none) :
    ∀ p ∈ store, p.article_url ≠ u := by
  intro p hp hc
  unfold mkLookup at h
  have hnil := List.getLast?_eq_none_iff.mp h
  have hall := List.filter_eq_nil_iff.mp hnil
  have hmem1 : p ∈ List.filter (fun q =>
      (List.filter (fun v => !v == "") (List.map Article.url articles)).contains q.article_url) store := by
    apply List.mem_filter.mpr
    refine ⟨hp, ?_⟩
    rw [hc]
    have humem : u ∈ List.filter (fun v => !v == "") (List.map Article.url articles) :=
      List.mem_filter.mpr ⟨hu, by simpa using hne⟩
    simpa using humem
  have := hall p hmem1
  simp [hc] at this

theorem persistStore_urls (store : Store) (b : List Article) :
    (persistArticlesStore store b).map Post.article_url =
      store.map Post.article_url ++ (resolveArticles store b).newArticles.map Article.url := by
  unfold persistArticlesStore
  rw [insertNew_urls, applyUpdates_urls, withSummaries_urls]

theorem persistStore_storeOk (store : Store) (b : List Article)
    (hs : StoreOk store) (hb : BatchOk b) : StoreOk (persistArticlesStore store b) := by
  obtain ⟨hsn, hse⟩ := hs
  obtain ⟨hbn, hbe⟩ := hb
  have hsub : List.Sublist ((resolveArticles store b).newArticles.map Article.url) (b.map Article.url) :=
    (resolveGo_new_sublist (mkLookup store b) b).map Article.url
  have hnewn : ((resolveArticles store b).newArticles.map Article.url).Nodup := hbn.sublist hsub
  have hdisj : (store.map Post.article_url).Disjoint
      ((resolveArticles store b).newArticles.map Article.url) := by
    apply List.disjoint_right.mpr
    intro u hu
    obtain ⟨x, hxmem, hxu⟩ := List.mem_map.mp hu
    subst hxu
    have hxb : x ∈ b := (resolveGo_new_sublist (mkLookup store b) b).mem hxmem
    have hxurl : x.url ∈ b.map Article.url := List.mem_map_of_mem _ hxb
    have hxne : x.url ≠ "" := fun hc => hbe (hc ▸ hxurl)
    have hlook : mkLookup store b x.url = none :=
      resolveGo_new_lookup_none (mkLookup store b) b x hxmem
    intro hinstore
    obtain ⟨p, hpmem, hpu⟩ := List.mem_map.mp hinstore
    exact mkLookup_none_not_in_store store b x.url hxurl hxne hlook p hpmem hpu
  constructor
  · rw [persistStore_urls]
    exact List.Nodup.append hsn hnewn hdisj
  · rw [persistStore_urls]
    intro hc
    rcases List.mem_append.mp hc with hc | hc
    · exact hse hc
    · obtain ⟨x, hxmem, hxu⟩ := List.mem_map.mp hc
      have hxb : x ∈ b := (resolveGo_new_sublist (mkLookup store b) b).mem hxmem
      exact hbe (hxu ▸ List.mem_map_of_mem Article.url hxb)

theorem runTask_event (env : BgEnv) (store : Store) (a : Article) :
    (runTask env store a).2 = .settled a.url (taskWrites env a) := by
  unfold runTask taskWrites
  by_cases hc : env.crash a.url
  · simp [hc]
  · cases hf : env.fetch a.url with
    | none => simp [hc, hf]
    | some content =>
      cases a.id <;> simp [hc, hf]

theorem chunk2_eq_nil {α : Type} (l : List α) : chunk2 l = [] ↔ l = [] := by
  cases l with
  | nil => simp [chunk2]
  | cons a rest =>
    cases rest <;> simp [chunk2]

theorem chunk2_flatten {α : Type} (l : List α) : (chunk2 l).flatten = l := by
  induction l using chunk2.induct with
  | case1 => simp [chunk2]
  | case2 a => simp [chunk2]
  | case3 a b rest ih => simp [chunk2, ih]

theorem chunk2_small {α : Type} (l : List α) : ∀ b ∈ chunk2 l, b.length ≤ 2 ∧ b ≠ [] := by
  induction l using chunk2.induct with
  | case1 => simp [chunk2]
  | case2 a => simp [chunk2]
  | case3 a b rest ih =>
    intro c hc
    rcases List.mem_cons.mp hc with hc | hc
    · subst hc
      simp
    · exact ih c hc

theorem chunk2_dropLast_full {α : Type} (l : List α) :
    ∀ b ∈ (chunk2 l).dropLast, b.length = 2 := by
  induction l using chunk2.induct with
  | case1 => simp [chunk2]
  | case2 a => simp [chunk2]
  | case3 a b rest ih =>
    intro c hc
    by_cases hr : rest = []
    · subst hr
      simp [chunk2] at hc
    · have hch : chunk2 rest ≠ [] := fun h => hr ((chunk2_eq_nil rest).mp h)
      rw [show chunk2 (a :: b :: rest) = [a, b] :: chunk2 rest from rfl] at hc
      rw [List.dropLast_cons_of_ne_nil hch] at hc
      rcases List.mem_cons.mp hc with hc | hc
      · subst hc
        simp
      · exact ih c hc

theorem bgLoop_store (env : BgEnv) (articles : List Article) (store : Store) :
    (bgLoop env store articles).1 =
      articles.foldl (fun st a => (runTask env st a).1) store := by
  induction articles using chunk2.induct generalizing store with
  | case1 => simp [bgLoop]
  | case2 a => simp [bgLoop]
  | case3 a b rest ih =>
    simp only [bgLoop, List.foldl]
    exact ih _

theorem bgLoop_trace (env : BgEnv) (articles : List Article) (store : Store) :
    (bgLoop env store articles).2 =
      joinPause ((chunk2 articles).map
        (fun b => b.map (fun a => BgEvent.settled a.url (taskWrites env a)))) := by
  induction articles using chunk2.induct generalizing store with
  | case1 => simp [bgLoop, chunk2, joinPause]
  | case2 a => simp [bgLoop, chunk2, joinPause, runTask_event]
  | case3 a b rest ih =>
    by_cases hr : rest = []
    · subst hr
      simp [bgLoop, chunk2, joinPause, runTask_event]
    · have hch : chunk2 rest ≠ [] := fun h => hr ((chunk2_eq_nil rest).mp h)
      simp only [bgLoop, runTask_event]
      rw [if_neg (by simpa using hr)]
      cases hcc : chunk2 rest with
      | nil => exact absurd hcc hch
      | cons c cs =>
        simp only [chunk2, hcc, List.map_cons, joinPause, List.map_nil, List.nil_append,
          List.cons_append]
        rw [ih]
        simp [hcc, joinPause]

/-! ## Claim theorems -/

/-- Claim C1, counterexample: for the batch `[A(u1), B(u1), C(u2)]`
with a persisted row for `u1`, the resolution step of
`persistArticles` returns TWO known entries for `u1` — the in-batch
duplicate is not collapsed — refuting the claimed count of exactly
one. The single new entry for `u2` does hold. -/
theorem resolve_dedup_counterexample :
    ((((resolveArticles [postU1] [candA, candB, candC]).storedKnown ++
        (resolveArticles [postU1] [candA, candB, candC]).toUpdate).filter
          (fun a => a.url == "u1")).length = 2) ∧
    ¬ ((((resolveArticles [postU1] [candA, candB, candC]).storedKnown ++
        (resolveArticles [postU1] [candA, candB, candC]).toUpdate).filter
          (fun a => a.url == "u1")).length = 1) ∧
    (resolveArticles [postU1] [candA, candB, candC]).newArticles = [candC] := by
  decide

/-- Claim C1, amended: for every batch `[A, B, C]` with `A` and `B`
sharing a URL, `C` on a distinct URL, and one persisted row for the
shared URL, the resolution step returns one known entry per candidate
occurrence — two for the shared URL, both bound to the same persisted
row id — and exactly one new entry for the distinct URL. -/
theorem resolve_known_per_occurrence (A B C : Article) (p : Post)
    (hB : B.url = A.url) (hp : p.article_url = A.url)
    (hC : C.url ≠ A.url) (hA : A.url ≠ "") :
    ((resolveArticles [p] [A, B, C]).storedKnown ++ (resolveArticles [p] [A, B, C]).toUpdate).length = 2 ∧
    (∀ x ∈ (resolveArticles [p] [A, B, C]).storedKnown ++ (resolveArticles [p] [A, B, C]).toUpdate,
      x.url = A.url ∧ x.id = some p.id) ∧
    (resolveArticles [p] [A, B, C]).newArticles = [C] := by
  have hlookA : mkLookup [p] [A, B, C] A.url = some p := by
    simp [mkLookup, hp, hA]
  have hlookB : mkLookup [p] [A, B, C] B.url = some p := by
    rw [hB]; exact hlookA
  have hlookC : mkLookup [p] [A, B, C] C.url = none := by
    simp [mkLookup, hp, hC, Ne.symm hC]
  simp only [resolveArticles, resolveGo, hlookA, hlookB, hlookC]
  split_ifs <;> simp_all [hB]

/-- Claim C1, witness for the amended theorem at the concrete scenario
batch. -/
theorem resolve_known_per_occurrence_witness :
    ((resolveArticles [postU1] [candA, candB, candC]).storedKnown ++
        (resolveArticles [postU1] [candA, candB, candC]).toUpdate).length = 2 ∧
    (∀ x ∈ (resolveArticles [postU1] [candA, candB, candC]).storedKnown ++
        (resolveArticles [postU1] [candA, candB, candC]).toUpdate,
      x.url = candA.url ∧ x.id = some postU1.id) ∧
    (resolveArticles [postU1] [candA, candB, candC]).newArticles = [candC] :=
  resolve_known_per_occurrence candA candB candC postU1 rfl rfl (by decide) (by decide)

/-- Claim C2, counterexample: the legacy per-candidate writer kept in
the repository (the first route iteration) updates an existing row
with `content: article.content ?? existing.content`, so a row whose
summary is present (`Real summary`) is overwritten by the incoming
candidate content — refuting the claim that every persistence pass
updates the summary only when the stored one is absent. -/
theorem legacy_writer_overwrites_counterexample :
    strTruthy (Post.content { id := 1, article_url := "u1", title := "T", content := some "Real summary" }) = true ∧
    persistArticlesLegacy [{ id := 1, article_url := "u1", title := "T", content := some "Real summary" }]
        [{ id := none, title := "T2", url := "u1", source := "arXiv", category := "Academia & Research",
           content := some "Read this article from arXiv: T2", abstract := none }] =
      [{ id := 1, article_url := "u1", title := "T2", content := some "Read this article from arXiv: T2" }] := by
  decide

/-- Claim C2, amended: the current writer (`persistArticles` in
`route.ts`) never loses a present summary — a stored row whose content
is non-absent survives any persistence pass completely unchanged,
because the update branch is entered only for rows with absent
content. -/
theorem persist_preserves_present_summary (store : Store) (articles : List Article) (p : Post)
    (hids : (store.map Post.id).Nodup) (hp : p ∈ store) (hc : strTruthy p.content = true) :
    p ∈ persistArticlesStore store articles := by
  have hupd : ∀ a ∈ (resolveArticles store articles).toUpdate, a.id ≠ some p.id := by
    intro a ha hcontra
    obtain ⟨ex, hl, hexc, hid⟩ := resolveGo_toUpdate_ids (mkLookup store articles) articles a ha
    have hexmem : ex ∈ store := mkLookup_mem store articles a.url ex hl
    have hideq : ex.id = p.id := by
      rw [hid] at hcontra
      exact Option.some.inj hcontra
    have hexp : ex = p := List.inj_on_of_nodup_map hids hexmem hp hideq
    rw [hexp] at hexc
    rw [hexc] at hc
    exact Bool.false_ne_true hc
  exact insertNew_mem _ _ _ (applyUpdates_mem _ _ _ hp hupd)

/-- Claim C2, witness: a concrete row with a present summary survives
a pass that tries to overwrite it. -/
theorem persist_preserves_present_summary_witness :
    ({ id := 1, article_url := "u1", title := "T", content := some "Real summary" } : Post) ∈
      persistArticlesStore [{ id := 1, article_url := "u1", title := "T", content := some "Real summary" }]
        [{ id := none, title := "T2", url := "u1", source := "arXiv", category := "Academia & Research",
           content := some "Attempted overwrite", abstract := none }] :=
  persist_preserves_present_summary _ _ _ (by decide) (by decide) (by decide)

/-- Claim C3, counterexample: a single aggregation batch carrying an
in-batch duplicate URL (two candidates for `u1`, neither persisted yet)
inserts two rows with the same `sourceUrl` — running the pipeline twice
with overlapping candidate sets can therefore leave duplicate Records,
refuting the claim. The per-candidate routing itself (existing URL to
update/reuse, unknown URL to insert) behaves as described. -/
theorem duplicate_batch_counterexample :
    (persistArticlesStore (persistArticlesStore [] [candA, candB]) [candA]).map Post.article_url =
      ["u1", "u1"] ∧
    ¬ ((persistArticlesStore (persistArticlesStore [] [candA, candB]) [candA]).map
        Post.article_url).Nodup := by
  decide

/-- Claim C3, amended: provided each batch is free of internal URL
collisions and empty URLs, running the persistence pass twice preserves
URL uniqueness of the store; moreover only candidates whose URL has no
existing row are inserted (the store URLs after one pass are exactly
the old URLs plus the resolved-new URLs). -/
theorem idempotent_ingestion_nodup_urls (store : Store) (b1 b2 : List Article)
    (hs : StoreOk store) (h1 : BatchOk b1) (h2 : BatchOk b2) :
    StoreOk (persistArticlesStore (persistArticlesStore store b1) b2) ∧
    (∀ x ∈ (resolveArticles store b1).newArticles, x.url ∉ store.map Post.article_url) ∧
    (persistArticlesStore store b1).map Post.article_url =
      store.map Post.article_url ++ (resolveArticles store b1).newArticles.map Article.url := by
  refine ⟨persistStore_storeOk _ _ (persistStore_storeOk _ _ hs h1) h2, ?_, persistStore_urls _ _⟩
  intro x hx hc
  have hxb : x ∈ b1 := (resolveGo_new_sublist (mkLookup store b1) b1).mem hx
  have hxurl : x.url ∈ b1.map Article.url := List.mem_map_of_mem _ hxb
  have hxne : x.url ≠ "" := fun heq => h1.2 (heq ▸ hxurl)
  have hlook : mkLookup store b1 x.url = none :=
    resolveGo_new_lookup_none (mkLookup store b1) b1 x hx
  obtain ⟨p, hpmem, hpu⟩ := List.mem_map.mp hc
  exact mkLookup_none_not_in_store store b1 x.url hxurl hxne hlook p hpmem hpu

/-- Claim C3, witness: two overlapping collision-free batches leave a
well-formed store. -/
theorem idempotent_ingestion_witness :
    StoreOk (persistArticlesStore (persistArticlesStore [] [candA, candC]) [candA]) :=
  (idempotent_ingestion_nodup_urls [] [candA, candC] [candA]
    (by constructor <;> decide) (by constructor <;> decide) (by constructor <;> decide)).1

/-- Claim C4, counterexample: a candidate whose provider abstract has
length exactly 50 — "at least 50 characters" in the claim — is NOT
summarized from the abstract: the code requires strictly more than 50
characters, so this candidate falls through to the scraping path and a
network fetch of its URL is performed. -/
theorem abstract_fifty_scrapes :
    (arxivCandidate50.abstract.getD "").length = 50 ∧
    (enrichOne (fun _ => none) none arxivCandidate50).2 = ["https://x/a"] ∧
    (enrichOne (fun _ => none) none arxivCandidate50).1.content =
      some (fallbackMessage arxivCandidate50) := by
  decide

/-- Claim C4, amended: for every candidate whose provider abstract is
strictly longer than 50 characters, the enricher derives the summary
by passing the abstract to the summarizer and performs no page fetch
of the candidate URL. -/
theorem enrich_uses_long_abstract (env : String → Option String) (llm : Option String)
    (a : Article) (s : String) (h1 : a.abstract = some s) (h2 : s.length > 50) :
    enrichOne env llm a =
      ({ a with content := some (generateArticleSummary a.title a.abstract none llm) }, []) := by
  have hne : s ≠ "" := by
    intro hc
    rw [hc] at h2
    simp at h2
  unfold enrichOne
  simp [h1, strTruthy, hne, h2]

/-- Claim C4, witness: the 120-character-abstract scenario — the
summary is derived from the abstract and no URL is fetched. -/
theorem enrich_uses_long_abstract_witness :
    enrichOne (fun _ => none) none arxivCandidate120 =
      ({ arxivCandidate120 with
          content := some (generateArticleSummary arxivCandidate120.title
            arxivCandidate120.abstract none none) }, []) :=
  enrich_uses_long_abstract (fun _ => none) none arxivCandidate120 abstract120 rfl (by decide)

/-- Claim C5: every source adapter returns the empty list — and never
raises — in every failure mode: network error, non-2xx status,
malformed payload, missing API credential, and the NewsAPI error
status inside a 2xx payload. (The adapters are total functions whose
try/catch wrappers map every thrown body to the empty list.) -/
theorem adapters_swallow_failures (env : SourcesEnv) (limit : Nat) :
    (env.arxivFeed = .netError ∨ env.arxivFeed = .badStatus ∨ env.arxivFeed = .malformed →
      fetchArxiv env limit = []) ∧
    (env.hnTop = .netError ∨ env.hnTop = .badStatus ∨ env.hnTop = .malformed →
      fetchHackerNews env limit = []) ∧
    (env.sdFeed = .netError ∨ env.sdFeed = .badStatus ∨ env.sdFeed = .malformed →
      fetchScienceDaily env limit = []) ∧
    (env.newsKey = none → fetchNewsAPI env limit = []) ∧
    (env.newsResp = .netError ∨ env.newsResp = .badStatus ∨ env.newsResp = .malformed →
      fetchNewsAPI env limit = []) ∧
    (∀ p : NewsPayload, env.newsResp = .ok p → p.errorStatus = true → fetchNewsAPI env limit = []) := by
  refine ⟨?_, ?_, ?_, ?_, ?_, ?_⟩
  · rintro (h | h | h) <;> simp [fetchArxiv, fetchArxivBody, h]
  · rintro (h | h | h) <;> simp [fetchHackerNews, fetchHackerNewsBody, h]
  · rintro (h | h | h) <;> simp [fetchScienceDaily, fetchScienceDailyBody, h]
  · intro h
    simp [fetchNewsAPI, h]
  · rintro (h | h | h) <;> cases hk : env.newsKey <;>
      simp [fetchNewsAPI, fetchNewsAPIBody, h, hk]
  · intro p hp herr
    cases hk : env.newsKey <;> simp [fetchNewsAPI, fetchNewsAPIBody, hp, herr, hk]

/-- Claim C5, witness: all four adapters return the empty list in a
concrete all-failing environment. -/
theorem adapters_swallow_failures_witness :
    fetchArxiv failEnv 5 = [] ∧ fetchHackerNews failEnv 5 = [] ∧
    fetchScienceDaily failEnv 5 = [] ∧ fetchNewsAPI failEnv 5 = [] :=
  ⟨(adapters_swallow_failures failEnv 5).1 (Or.inl rfl),
   (adapters_swallow_failures failEnv 5).2.1 (Or.inr (Or.inl rfl)),
   (adapters_swallow_failures failEnv 5).2.2.1 (Or.inr (Or.inr rfl)),
   (adapters_swallow_failures failEnv 5).2.2.2.1 rfl⟩

/-- Claim C6: with the shuffle disabled, `fetchAllArticles` returns
exactly the concatenation of the four adapter results in registration
order (arXiv, Hacker News, ScienceDaily, NewsAPI); when a subset of
adapters fail (returning empty), the aggregate equals the
concatenation of the succeeding ones, and no exception escapes (the
aggregate is a total function of the environment). -/
theorem fetchAll_registration_order (env : SourcesEnv) (limit : Nat)
    (shuffle : List Article → List Article) :
    fetchAllArticles env limit false shuffle =
      fetchArxiv env limit ++ fetchHackerNews env limit ++
        fetchScienceDaily env limit ++ fetchNewsAPI env limit ∧
    (fetchHackerNews env limit = [] → fetchScienceDaily env limit = [] →
      fetchAllArticles env limit false shuffle = fetchArxiv env limit ++ fetchNewsAPI env limit) := by
  constructor
  · simp [fetchAllArticles, List.foldl, List.append_assoc]
  · intro h1 h2
    simp [fetchAllArticles, List.foldl, h1, h2, List.append_assoc]

/-- Claim C6, witness: with Hacker News and ScienceDaily failing, the
aggregate equals the concatenation of the arXiv and NewsAPI results. -/
theorem fetchAll_registration_order_witness :
    fetchAllArticles mixedEnv 5 false id = fetchArxiv mixedEnv 5 ++ fetchNewsAPI mixedEnv 5 :=
  (fetchAll_registration_order mixedEnv 5 id).2 (by decide) (by decide)

/-- Claim C7: when the LLM call errors, `generateArticleSummary`
returns the truncation (to 300 characters plus an ellipsis) of the
abstract if one is available, else of the full text if available; with
neither available it returns the deterministic templated sentence
referencing the title; in every such case the result is nonempty — no
LLM failure is ever propagated (the function is total). -/
theorem generateSummary_llm_failure (title : String) (abstract fullText : Option String) :
    (strTruthy abstract = true →
      generateArticleSummary title abstract fullText none = truncate300 (abstract.getD "")) ∧
    (strTruthy abstract = false → strTruthy fullText = true →
      generateArticleSummary title abstract fullText none = truncate300 (fullText.getD "")) ∧
    (strTruthy abstract = false → strTruthy fullText = false →
      generateArticleSummary title abstract fullText none = templateSummary title) ∧
    generateArticleSummary title abstract fullText none ≠ "" := by
  unfold generateArticleSummary
  refine ⟨?_, ?_, ?_, ?_⟩
  · intro h
    simp [h]
  · intro h1 h2
    simp [h1, h2]
  · intro h1 h2
    simp [h1, h2]
  · by_cases h1 : strTruthy abstract
    · simp only [h1]
      cases abstract with
      | none => simp at h1
      | some s =>
        simp at h1
        simp [strTruthy, h1]
        exact truncate300_ne_empty s h1
    · by_cases h2 : strTruthy fullText
      · cases fullText with
        | none => simp at h2
        | some s =>
          have h1f : strTruthy abstract = false := by simpa using h1
          have hse : s ≠ "" := by simpa [strTruthy] using h2
          simp [h1f, h2]
          exact truncate300_ne_empty s hse
      · simp [h1, h2]
        exact templateSummary_ne_empty title

/-- Claim C7, witness: a failing LLM call with a short concrete
abstract returns that abstract unchanged (its own 300-character
truncation). -/
theorem generateSummary_llm_failure_witness :
    generateArticleSummary "Quantum Paper" (some "An abstract of modest length.") none none =
      "An abstract of modest length." := by
  have h := (generateSummary_llm_failure "Quantum Paper" (some "An abstract of modest length.") none).1
    (by decide)
  rw [h]
  decide

/-- Claim C8: for every URL containing `.pdf` or `arxiv.org`, the
page-content fetcher returns null and performs no network request,
for every fetch environment. -/
theorem no_scrape_pdf_arxiv (env : String → Option String) (url : String)
    (h : jsIncludes url ".pdf" = true ∨ jsIncludes url "arxiv.org" = true) :
    fetchArticleContent env url = ⟨none, []⟩ := by
  unfold fetchArticleContent
  rcases h with h | h <;> simp [h]

/-- Claim C8, witness: a concrete arXiv URL is never fetched even when
the environment would return page text. -/
theorem no_scrape_pdf_arxiv_witness :
    fetchArticleContent (fun _ => some "page text") "https://arxiv.org/abs/2401.00001" = ⟨none, []⟩ :=
  no_scrape_pdf_arxiv (fun _ => some "page text") "https://arxiv.org/abs/2401.00001"
    (Or.inr (by decide))

/-- Claim C9: the background scheduler visits its candidate list in
the fixed-size slices `chunk2` (every batch has at most 2 tasks, every
batch except possibly the last exactly 2, and the batches concatenate
back to the candidate list in order); its event trace is exactly the
per-batch task settlements joined by the inter-batch pause, so batch
`n+1` starts only after batch `n` has settled; the final store is the
fold of the independent per-task effects, and a crashing task settles
without writing while leaving every other task of its batch and all
later batches to run. -/
theorem background_batches_of_two (env : BgEnv) (articles : List Article) (store : Store) :
    (processArticlesInBackground env articles store).2 =
      joinPause ((chunk2 articles).map
        (fun b => b.map (fun a => BgEvent.settled a.url (taskWrites env a)))) ∧
    (processArticlesInBackground env articles store).1 =
      articles.foldl (fun st a => (runTask env st a).1) store ∧
    (chunk2 articles).flatten = articles ∧
    (∀ b ∈ chunk2 articles, b.length ≤ 2 ∧ b ≠ []) ∧
    (∀ b ∈ (chunk2 articles).dropLast, b.length = 2) ∧
    (∀ st a, env.crash a.url = true → runTask env st a = (st, .settled a.url false)) := by
  refine ⟨?_, ?_, chunk2_flatten articles, chunk2_small articles, chunk2_dropLast_full articles, ?_⟩
  · unfold processArticlesInBackground
    cases articles with
    | nil => simp [chunk2, joinPause]
    | cons a rest => simpa using bgLoop_trace env (a :: rest) store
  · unfold processArticlesInBackground
    cases articles with
    | nil => simp
    | cons a rest => simpa using bgLoop_store env (a :: rest) store
  · intro st a hc
    unfold runTask
    simp [hc]

/-- Claim C9, witness: at a concrete environment in which the first
task crashes, a batch of the chunking has length at most 2 and the
crashing task settles without a store write. -/
theorem background_batches_witness :
    ([candA, candB] : List Article).length ≤ 2 ∧
    runTask bgEnvW [] candA = ([], .settled candA.url false) := by
  have h := background_batches_of_two bgEnvW [candA, candB, candC] []
  exact ⟨(h.2.2.2.1 [candA, candB] (by decide)).1, h.2.2.2.2.2 [] candA (by decide)⟩

/-- Claim C10, counterexample: a POST body with `limit: 0` yields a
per-source limit of 10, not the claimed `min(10, max(1, 0)) = 1`,
because JavaScript `Number(body.limit) || MAX_PER_SOURCE` replaces the
falsy 0 with the default before clamping. -/
theorem post_limit_zero_counterexample :
    postLimit 0 = 10 ∧ min MAX_PER_SOURCE (max 1 (0 : Int)) = 1 ∧
    postLimit 0 ≠ min MAX_PER_SOURCE (max 1 (0 : Int)) := by
  decide

/-- Claim C10, amended: for every integer `n`, the GET per-source
limit equals `min(10, max(1, n))`; the POST limit equals
`min(10, max(1, n))` for every nonzero `n` but is the default 10 at
`n = 0`; both limits always lie between 1 and 10. -/
theorem limit_clamped (n : Int) :
    getLimit n = min 10 (max 1 n) ∧
    (n ≠ 0 → postLimit n = min 10 (max 1 n)) ∧
    postLimit 0 = 10 ∧
    1 ≤ getLimit n ∧ getLimit n ≤ 10 ∧ 1 ≤ postLimit n ∧ postLimit n ≤ 10 := by
  have hbase : ∀ m : Int, 1 ≤ min (10 : Int) (max 1 m) ∧ min (10 : Int) (max 1 m) ≤ 10 :=
    fun m => ⟨le_min (by norm_num) (le_max_left 1 m), min_le_left _ _⟩
  unfold getLimit postLimit MAX_PER_SOURCE
  by_cases h : n = 0
  · simp [h]
  · have hif : (if n == 0 then (10 : Int) else n) = n := by
      simp [h]
    rw [hif]
    exact ⟨rfl, fun _ => rfl, by norm_num, (hbase n).1, (hbase n).2, (hbase n).1, (hbase n).2⟩

/-- Claim C10, witness: the amended theorem at `n = 7`. -/
theorem limit_clamped_witness : postLimit 7 = min 10 (max 1 7) :=
  (limit_clamped 7).2.1 (by decide)

end BetterFeed
